import Mathlib

/-!
Verification of the change-synchronization subsystem of the mqtt-bridge
configuration UI (source: `src/components/BrokerForm.tsx`, final App
document).  The JSON-like documents the client edits are modelled by the
`Value` type; the diff engine `generateJSONPatch`, the canonicalization
step `cleanConfig`, the sync client `sendPatchToServer` / `loadConfig`,
and the SSE status-projection handler are translated function by
function from the TypeScript source.
-/

/-- The generic JSON value tree the client operates on.  Numbers are
modelled as integers (all numbers occurring in the configuration are
integral); mappings are ordered association lists, mirroring JavaScript
object key insertion order, which `Object.keys` and `JSON.stringify`
observe. -/
inductive Value where
  | null : Value
  | bool : Bool → Value
  | num : Int → Value
  | str : String → Value
  | arr : List Value → Value
  | obj : List (String × Value) → Value
deriving Repr

mutual

/-- Structural equality of JSON values, the model of the source's
`JSON.stringify(a) !== JSON.stringify(b)` comparison (stringify equality
is structural equality including object key order). -/
def Value.beq : Value → Value → Bool
  | .null, .null => true
  | .bool a, .bool b => a == b
  | .num a, .num b => a == b
  | .str a, .str b => a == b
  | .arr a, .arr b => Value.beqList a b
  | .obj a, .obj b => Value.beqObj a b
  | _, _ => false

def Value.beqList : List Value → List Value → Bool
  | [], [] => true
  | a :: as, b :: bs => Value.beq a b && Value.beqList as bs
  | _, _ => false

def Value.beqObj : List (String × Value) → List (String × Value) → Bool
  | [], [] => true
  | (ka, va) :: as, (kb, vb) :: bs => ka == kb && Value.beq va vb && Value.beqObj as bs
  | _, _ => false

end

/-- Model of `typeof v === "object" && v !== null` — true exactly for sequences and
mappings (`typeof null` is `"object"` in JavaScript but the source always
pairs the check with `!== null`). -/
def Value.isComposite : Value → Bool
  | .arr _ => true
  | .obj _ => true
  | _ => false

/-- JavaScript strict equality `===` restricted to the cases in which the
diff engine consults it (its `else if (oldObj !== newObj)` branch is only
reachable when at least one side is a primitive or null, where `===` on
distinct-type or composite-vs-primitive operands is always false). -/
def jsStrictEq : Value → Value → Bool
  | .null, .null => true
  | .bool a, .bool b => a == b
  | .num a, .num b => a == b
  | .str a, .str b => a == b
  | _, _ => false

/-- Model of `Object.keys`: for an array the list of index strings, for an object
its keys in insertion order. -/
def jsKeys : Value → List String
  | .arr l => (List.range l.length).map (fun i => toString i)
  | .obj kvs => kvs.map (·.1)
  | _ => []

/-- JavaScript property read `v[k]` (undefined modelled as `none`): object
key lookup, or array element lookup by canonical index string. -/
def jsGet : Value → String → Option Value
  | .arr l, k =>
    match (List.range l.length).find? (fun i => toString i == k) with
    | some i => l.get? i
    | none => none
  | .obj kvs, k =>
    match kvs.find? (fun p => p.1 == k) with
    | some p => some p.2
    | none => none
  | _, _ => none

/-- Insertion-order deduplication, keeping first occurrences: the
iteration order of a JavaScript `Set` built from a list. -/
def dedupFirst (seen : List String) : List String → List String
  | [] => []
  | k :: ks => if k ∈ seen then dedupFirst seen ks else k :: dedupFirst (k :: seen) ks

/-- Model of `new Set([...Object.keys(oldObj), ...Object.keys(newObj)])` iterated
in insertion order. -/
def unionKeys (a b : List String) : List String := dedupFirst [] (a ++ b)

/-- One JSON-Patch operation as built by the diff engine: `op` ∈
add/replace/remove with a slash-delimited pointer string, value present
for add/replace. -/
inductive PatchOp where
  | add : String → Value → PatchOp
  | remove : String → PatchOp
  | replace : String → Value → PatchOp
deriving Repr

/-- Model of the array element path `` `${path}/${i}` ``. -/
def elementPath (path : String) (i : Nat) : String := path ++ "/" ++ toString i

/-- Model of the object member path `` path ? `${path}/${key}` : `/${key}` ``. -/
def childPath (path key : String) : String :=
  if path = "" then "/" ++ key else path ++ "/" ++ key

/-- A successful JavaScript property read yields a structurally smaller
value (used for termination of the recursive diff). -/
theorem jsGet_sizeOf {v u : Value} {k : String} (h : jsGet v k = some u) :
    sizeOf u < sizeOf v := by
  match v with
  | .null | .bool _ | .num _ | .str _ => simp [jsGet] at h
  | .arr l =>
    simp only [jsGet] at h
    split at h
    · have hm : u ∈ l := List.get?_mem h
      have := List.sizeOf_lt_of_mem hm
      simp only [Value.arr.sizeOf_spec]
      omega
    · exact absurd h (by simp)
  | .obj kvs =>
    simp only [jsGet] at h
    split at h
    next p hp =>
      have hm := List.mem_of_find?_eq_some hp
      have h1 := List.sizeOf_lt_of_mem hm
      obtain ⟨k2, v2⟩ := p
      injection h with h3
      subst h3
      have h4 : sizeOf (k2, v2) = 1 + sizeOf k2 + sizeOf v2 := rfl
      simp only [Value.obj.sizeOf_spec]
      omega
    · exact absurd h (by simp)

mutual

/-- The diff engine `generateJSONPatch(oldObj, newObj, path = "")` of
`BrokerForm.tsx`: element-wise positional array comparison, key-union
object comparison, and a single replace for changed primitives.  Note a
sequence paired with a mapping falls into the object branch (both have
JavaScript `typeof` `"object"`), not the primitive branch. -/
def generateJSONPatch (oldV newV : Value) (path : String) : List PatchOp :=
  match oldV, newV with
  | .arr os, .arr ns => genArray os ns path 0
  | o, n =>
    if o.isComposite && n.isComposite then
      genObject o n path (unionKeys (jsKeys o) (jsKeys n))
    else if jsStrictEq o n then []
    else [.replace (if path = "" then "/" else path) n]
termination_by (sizeOf oldV + sizeOf newV, 1, 0)
decreasing_by
  · apply Prod.Lex.left
    simp only [Value.arr.sizeOf_spec]
    omega
  · apply Prod.Lex.right
    apply Prod.Lex.left
    omega

/-- The array loop of `generateJSONPatch`: index `i` runs over
`[0, max(len(old), len(new)))`; removed tail elements, added tail
elements, and changed elements in positional order. -/
def genArray (os ns : List Value) (path : String) (i : Nat) : List PatchOp :=
  match os, ns with
  | [], [] => []
  | _ :: os2, [] => .remove (elementPath path i) :: genArray os2 [] path (i + 1)
  | [], n :: ns2 => .add (elementPath path i) n :: genArray [] ns2 path (i + 1)
  | o :: os2, n :: ns2 =>
    (if Value.beq o n then []
     else if o.isComposite && n.isComposite then generateJSONPatch o n (elementPath path i)
     else [.replace (elementPath path i) n]) ++ genArray os2 ns2 path (i + 1)
termination_by (sizeOf os + sizeOf ns, 0, 0)
decreasing_by
  · apply Prod.Lex.left
    simp only [List.cons.sizeOf_spec]
    omega
  · apply Prod.Lex.left
    simp only [List.cons.sizeOf_spec]
    omega
  · apply Prod.Lex.left
    simp only [List.cons.sizeOf_spec]
    omega
  · apply Prod.Lex.left
    simp only [List.cons.sizeOf_spec]
    omega

/-- The object loop of `generateJSONPatch` over the key union: removed
key, added key, or changed member (recursing when both sides are
composite). -/
def genObject (oldV newV : Value) (path : String) (keys : List String) : List PatchOp :=
  match keys with
  | [] => []
  | k :: ks =>
    (match h1 : jsGet oldV k, h2 : jsGet newV k with
     | some _, none => [.remove (childPath path k)]
     | none, some nv => [.add (childPath path k) nv]
     | some ov, some nv =>
       if Value.beq ov nv then []
       else if ov.isComposite && nv.isComposite then
         generateJSONPatch ov nv (childPath path k)
       else [.replace (childPath path k) nv]
     | none, none => []) ++ genObject oldV newV path ks
termination_by (sizeOf oldV + sizeOf newV, 0, keys.length)
decreasing_by
  · apply Prod.Lex.left
    have := jsGet_sizeOf h1
    have := jsGet_sizeOf h2
    omega
  · apply Prod.Lex.right
    apply Prod.Lex.right
    simp

end

/-- Split a character list at every occurrence of `sep` (the semantics of
JavaScript `String.prototype.split` with a one-character separator);
always returns at least one segment. -/
def splitOnChar (sep : Char) : List Char → List (List Char)
  | [] => [[]]
  | c :: cs =>
    match splitOnChar sep cs with
    | [] => [[]]
    | seg :: rest => if c = sep then [] :: seg :: rest else (c :: seg) :: rest

/-- Decimal digit value of a character. -/
def digitVal (c : Char) : Option Nat :=
  if '0' ≤ c ∧ c ≤ '9' then some (c.toNat - '0'.toNat) else none

/-- Parse a non-empty all-digit character list as a natural number. -/
def parseDigitsAux : List Char → Nat → Option Nat
  | [], acc => some acc
  | c :: cs, acc =>
    match digitVal c with
    | some d => parseDigitsAux cs (acc * 10 + d)
    | none => none

/-- Parse a decimal natural number string. -/
def parseNatStr (s : String) : Option Nat :=
  match s.data with
  | [] => none
  | l => parseDigitsAux l 0

/-- JSON-Pointer array index token: digits only, no leading zero. -/
def parseIndex (k : String) : Option Nat :=
  if k ≠ "0" ∧ k.data.head? = some '0' then none else parseNatStr k

/-- JSON-Pointer segment unescaping (`~1` → `/`, `~0` → `~`). -/
def unescapeSeg : List Char → List Char
  | [] => []
  | '~' :: '1' :: rest => '/' :: unescapeSeg rest
  | '~' :: '0' :: rest => '~' :: unescapeSeg rest
  | c :: rest => c :: unescapeSeg rest

/-- Parse a JSON-Pointer string into its segments: `""` is the whole
document, otherwise the string must start with `/`. -/
def parsePointer (p : String) : Option (List String) :=
  match p.data with
  | [] => some []
  | '/' :: rest => some ((splitOnChar '/' rest).map (fun seg => String.mk (unescapeSeg seg)))
  | _ => none

/-- First-match association-list update, appending when the key is absent
(the JSON-Patch `add` semantics on objects). -/
def objSet : List (String × Value) → String → Value → List (String × Value)
  | [], k, v => [(k, v)]
  | (k2, v2) :: rest, k, v =>
    if k2 = k then (k, v) :: rest else (k2, v2) :: objSet rest k v

/-- Remove the member with the given key (first match). -/
def objRemove : List (String × Value) → String → List (String × Value)
  | [], _ => []
  | (k2, v2) :: rest, k => if k2 = k then rest else (k2, v2) :: objRemove rest k

/-- Does the object have a member with this key? -/
def objHas (kvs : List (String × Value)) (k : String) : Bool :=
  (kvs.find? (fun p => p.1 == k)).isSome

/-- Look up a member by key. -/
def objGet (kvs : List (String × Value)) (k : String) : Option Value :=
  match kvs.find? (fun p => p.1 == k) with
  | some p => some p.2
  | none => none

/-- Insert an element at an index (callers guard `i ≤ length`). -/
def listInsertAt (i : Nat) (v : Value) : List Value → List Value
  | l =>
    match i, l with
    | 0, l => v :: l
    | _ + 1, [] => []
    | n + 1, x :: xs => x :: listInsertAt n v xs

/-- Modelled from the spec: JSON-Patch `add` at a parsed pointer, RFC 6902
semantics — the server-side Patch Applier (`apply(doc, ops)`, §2) is not
part of this repository, so it is modelled from the spec's words
"standard JSON-Patch apply semantics".  Object add inserts or overwrites;
array add requires `index ≤ length` (or `-` to append) and shifts
subsequent elements. -/
def addAt : Value → List String → Value → Option Value
  | _, [], v => some v
  | .obj kvs, [k], v => some (.obj (objSet kvs k v))
  | .arr l, [k], v =>
    if k = "-" then some (.arr (l ++ [v]))
    else
      match parseIndex k with
      | some i => if i ≤ l.length then some (.arr (listInsertAt i v l)) else none
      | none => none
  | .obj kvs, k :: rest, v =>
    match objGet kvs k with
    | some child =>
      match addAt child rest v with
      | some child2 => some (.obj (objSet kvs k child2))
      | none => none
    | none => none
  | .arr l, k :: rest, v =>
    match parseIndex k with
    | some i =>
      match l.get? i with
      | some child =>
        match addAt child rest v with
        | some child2 => some (.arr (l.set i child2))
        | none => none
      | none => none
    | none => none
  | _, _ :: _, _ => none

/-- Modelled from the spec: JSON-Patch `replace`, RFC 6902 semantics —
the target location must exist. -/
def replaceAt : Value → List String → Value → Option Value
  | _, [], v => some v
  | .obj kvs, [k], v => if objHas kvs k then some (.obj (objSet kvs k v)) else none
  | .arr l, [k], v =>
    match parseIndex k with
    | some i => if i < l.length then some (.arr (l.set i v)) else none
    | none => none
  | .obj kvs, k :: rest, v =>
    match objGet kvs k with
    | some child =>
      match replaceAt child rest v with
      | some child2 => some (.obj (objSet kvs k child2))
      | none => none
    | none => none
  | .arr l, k :: rest, v =>
    match parseIndex k with
    | some i =>
      match l.get? i with
      | some child =>
        match replaceAt child rest v with
        | some child2 => some (.arr (l.set i child2))
        | none => none
      | none => none
    | none => none
  | _, _ :: _, _ => none

/-- Modelled from the spec: JSON-Patch `remove`, RFC 6902 semantics — the
target location must exist, so removing an array index `≥ length` is an
error. -/
def removeAt : Value → List String → Option Value
  | _, [] => none
  | .obj kvs, [k] => if objHas kvs k then some (.obj (objRemove kvs k)) else none
  | .arr l, [k] =>
    match parseIndex k with
    | some i => if i < l.length then some (.arr (l.eraseIdx i)) else none
    | none => none
  | .obj kvs, k :: rest =>
    match objGet kvs k with
    | some child =>
      match removeAt child rest with
      | some child2 => some (.obj (objSet kvs k child2))
      | none => none
    | none => none
  | .arr l, k :: rest =>
    match parseIndex k with
    | some i =>
      match l.get? i with
      | some child =>
        match removeAt child rest with
        | some child2 => some (.arr (l.set i child2))
        | none => none
      | none => none
    | none => none
  | _, _ :: _ => none

/-- Modelled from the spec: apply one PatchOp under standard JSON-Patch
semantics; `none` is an apply error. -/
def applyOp (doc : Value) (op : PatchOp) : Option Value :=
  match op with
  | .add p v => (parsePointer p).bind (fun segs => addAt doc segs v)
  | .replace p v => (parsePointer p).bind (fun segs => replaceAt doc segs v)
  | .remove p => (parsePointer p).bind (fun segs => removeAt doc segs)

/-- Modelled from the spec: sequential application of an ordered op list,
stopping with an error if any op fails (`apply(doc, ops) -> doc'`). -/
def applyPatch (doc : Value) (ops : List PatchOp) : Option Value :=
  List.foldlM applyOp doc ops

/-- Type `Protocol` of `types/mqtt-bridge.ts`: "in" | "in6" | "l2" | "rc" | "un". -/
inductive Protocol where
  | inP | in6P | l2P | rcP | unP
deriving DecidableEq, Repr

/-- The JSON string of a protocol. -/
def Protocol.toStr : Protocol → String
  | .inP => "in"
  | .in6P => "in6"
  | .l2P => "l2"
  | .rcP => "rc"
  | .unP => "un"

/-- Type `Encryption`: "legacy" | "tls". -/
inductive Encryption where
  | legacy | tls
deriving DecidableEq, Repr

/-- The JSON string of an encryption mode. -/
def Encryption.toStr : Encryption → String
  | .legacy => "legacy"
  | .tls => "tls"

/-- Type `Transport`: "stream" | "websocket". -/
inductive Transport where
  | stream | websocket
deriving DecidableEq, Repr

/-- The JSON string of a transport. -/
def Transport.toStr : Transport → String
  | .stream => "stream"
  | .websocket => "websocket"

/-- Type `Topic` of `types/mqtt-bridge.ts`. -/
structure Topic where
  topic : String
  qos : Int
deriving DecidableEq, Repr

/-- Type `Mqtt` of `types/mqtt-bridge.ts`. -/
structure Mqtt where
  client_id : String
  keep_alive : Int
  clean_session : Bool
  will_topic : String
  will_message : String
  will_qos : Int
  will_retain : Bool
  username : String
  password : String
  loop_prevention : Bool
deriving DecidableEq, Repr

/-- Type `NetIn` (IPv4 address). -/
structure NetIn where
  host : String
  port : Int
deriving DecidableEq, Repr

/-- Type `NetIn6` (IPv6 address). -/
structure NetIn6 where
  host : String
  port : Int
deriving DecidableEq, Repr

/-- Type `NetRc` (Bluetooth RFCOMM address). -/
structure NetRc where
  host : String
  channel : Int
deriving DecidableEq, Repr

/-- Type `NetL2` (Bluetooth L2CAP address). -/
structure NetL2 where
  host : String
  psm : Int
deriving DecidableEq, Repr

/-- Type `NetUn` (Unix socket address). -/
structure NetUn where
  path : String
deriving DecidableEq, Repr

/-- Type `Network` of `types/mqtt-bridge.ts`; the optional protocol-specific
address fields `in`/`in6`/`rc`/`l2`/`un` are renamed `net*` because `in`
is a Lean keyword. -/
structure Network where
  instance_name : String
  protocol : Protocol
  encryption : Encryption
  transport : Transport
  netIn : Option NetIn
  netIn6 : Option NetIn6
  netRc : Option NetRc
  netL2 : Option NetL2
  netUn : Option NetUn
deriving DecidableEq, Repr

/-- Type `Broker` of `types/mqtt-bridge.ts`; the optional `prefix` field is
renamed `pfx` because `prefix` is a Lean keyword. -/
structure Broker where
  disabled : Option Bool
  session_store : String
  mqtt : Option Mqtt
  network : Network
  pfx : Option String
  topics : List Topic
deriving DecidableEq, Repr

/-- Type `Bridge` of `types/mqtt-bridge.ts` (optional `prefix` renamed `pfx`). -/
structure Bridge where
  disabled : Option Bool
  name : String
  pfx : Option String
  brokers : List Broker
deriving DecidableEq, Repr

/-- Type `BridgesConfig`: the whole working document. -/
structure BridgesConfig where
  bridges : List Bridge
deriving DecidableEq, Repr

/-- JSON value of a topic (`{topic, qos}` key order as constructed by the
forms and the defaults). -/
def Topic.toValue (t : Topic) : Value :=
  .obj [("topic", .str t.topic), ("qos", .num t.qos)]

/-- JSON value of an mqtt connection object, key order as in the
interface and the `defaultMqtt` literal. -/
def Mqtt.toValue (m : Mqtt) : Value :=
  .obj [("client_id", .str m.client_id),
        ("keep_alive", .num m.keep_alive),
        ("clean_session", .bool m.clean_session),
        ("will_topic", .str m.will_topic),
        ("will_message", .str m.will_message),
        ("will_qos", .num m.will_qos),
        ("will_retain", .bool m.will_retain),
        ("username", .str m.username),
        ("password", .str m.password),
        ("loop_prevention", .bool m.loop_prevention)]

/-- JSON values of the protocol-specific address objects. -/
def NetIn.toValue (a : NetIn) : Value := .obj [("host", .str a.host), ("port", .num a.port)]

/-- JSON value of an IPv6 address object. -/
def NetIn6.toValue (a : NetIn6) : Value := .obj [("host", .str a.host), ("port", .num a.port)]

/-- JSON value of an RFCOMM address object. -/
def NetRc.toValue (a : NetRc) : Value := .obj [("host", .str a.host), ("channel", .num a.channel)]

/-- JSON value of an L2CAP address object. -/
def NetL2.toValue (a : NetL2) : Value := .obj [("host", .str a.host), ("psm", .num a.psm)]

/-- JSON value of a Unix socket address object. -/
def NetUn.toValue (a : NetUn) : Value := .obj [("path", .str a.path)]

/-- The `cleanBroker.network` object built by `cleanConfig`: the four
base fields in literal order, then (per the trailing `switch`) the
address object of the selected protocol if present. -/
def cleanNetwork (n : Network) : Value :=
  .obj ([("instance_name", .str n.instance_name),
         ("protocol", .str n.protocol.toStr),
         ("encryption", .str n.encryption.toStr),
         ("transport", .str n.transport.toStr)] ++
    (match n.protocol with
     | .inP => match n.netIn with | some a => [("in", a.toValue)] | none => []
     | .in6P => match n.netIn6 with | some a => [("in6", a.toValue)] | none => []
     | .rcP => match n.netRc with | some a => [("rc", a.toValue)] | none => []
     | .l2P => match n.netL2 with | some a => [("l2", a.toValue)] | none => []
     | .unP => match n.netUn with | some a => [("un", a.toValue)] | none => []))

/-- The `cleanBroker` object of `cleanConfig`: `network`, `mqtt`
(`broker.mqtt || {}`), `topics`, then `disabled` only if true,
`session_store` only if non-empty, `prefix` only if non-empty. -/
def cleanBroker (b : Broker) : Value :=
  .obj ([("network", cleanNetwork b.network),
         ("mqtt", match b.mqtt with | some m => m.toValue | none => .obj []),
         ("topics", .arr (b.topics.map Topic.toValue))] ++
    (if b.disabled = some true then [("disabled", .bool true)] else []) ++
    (if b.session_store ≠ "" then [("session_store", .str b.session_store)] else []) ++
    (match b.pfx with
     | some s => if s ≠ "" then [("prefix", .str s)] else []
     | none => []))

/-- The `cleanBridge` object of `cleanConfig`: `name`, `brokers`, then
`disabled` only if true and `prefix` only if non-empty. -/
def cleanBridge (br : Bridge) : Value :=
  .obj ([("name", .str br.name),
         ("brokers", .arr (br.brokers.map cleanBroker))] ++
    (if br.disabled = some true then [("disabled", .bool true)] else []) ++
    (match br.pfx with
     | some s => if s ≠ "" then [("prefix", .str s)] else []
     | none => []))

/-- Function `cleanConfig(cfg)` of `BrokerForm.tsx`: the canonicalization step run
on both the baseline and the working document before diffing. -/
def cleanConfig (c : BridgesConfig) : Value :=
  .obj [("bridges", .arr (c.bridges.map cleanBridge))]

/-- Outcome of one `sendPatchToServer` call: skipped because
`lastSavedConfigRef.current` is null, skipped because the generated patch
is empty, or a PATCH request whose transport either succeeded
(`response.ok`) or failed (non-ok status / network error). -/
inductive SendOutcome where
  | skippedNoBaseline | skippedEmpty | sentOk | sentFail
deriving DecidableEq, Repr

/-- The Sync Client state relevant to `sendPatchToServer`:
`lastSavedConfigRef.current` (the baseline, null until first set). -/
structure SyncState where
  baseline : Option BridgesConfig
deriving Repr

/-- Function `sendPatchToServer(newConfig)` of `BrokerForm.tsx`, with the fetch
outcome supplied as the `transportOk` oracle: skip when there is no
baseline; clean both documents and diff them; skip when the patch is
empty; on `response.ok` set the baseline to a deep clone of the
*un-normalized* `newConfig` (`JSON.parse(JSON.stringify(newConfig))`,
identity in this pure model); on failure leave all state unchanged (only
an error toast is shown). -/
def sendPatchToServer (st : SyncState) (newConfig : BridgesConfig) (transportOk : Bool) :
    SyncState × SendOutcome :=
  match st.baseline with
  | none => (st, .skippedNoBaseline)
  | some last =>
    let patch := generateJSONPatch (cleanConfig last) (cleanConfig newConfig) ""
    if patch.length = 0 then (st, .skippedEmpty)
    else if transportOk then ({ baseline := some newConfig }, .sentOk)
    else (st, .sentFail)

/-- One in-flight PATCH request of the event-loop model: the body that
was sent and the `newConfig` captured by the async closure for the
baseline update on success. -/
structure Request where
  patch : List PatchOp
  newConfig : BridgesConfig
deriving Repr

/-- Event-loop model of the Sync Client for concurrency claims:
`sendPatchToServer` is split at its single `await fetch(...)` suspension
point.  `inFlight` lists the started, unresolved requests in start
order. -/
structure LoopState where
  baseline : Option BridgesConfig
  inFlight : List Request
deriving Repr

/-- The synchronous prefix of `sendPatchToServer` (everything before
`await fetch`): compute the diff against the *current* baseline and, if
non-empty, start a request.  Nothing in the source consults or records
any in-flight state — each trigger starts its own request unconditionally. -/
def triggerStep (s : LoopState) (w : BridgesConfig) : LoopState :=
  match s.baseline with
  | none => s
  | some last =>
    let patch := generateJSONPatch (cleanConfig last) (cleanConfig w) ""
    if patch.length = 0 then s
    else { s with inFlight := s.inFlight ++ [⟨patch, w⟩] }

/-- The continuation of `sendPatchToServer` after its fetch resolves
(modelled for the oldest in-flight request): on `response.ok` the
baseline becomes the captured `newConfig`; otherwise only a toast is
shown. -/
def resolveStep (s : LoopState) (ok : Bool) : LoopState :=
  match s.inFlight with
  | [] => s
  | r :: rest =>
    if ok then { baseline := some r.newConfig, inFlight := rest }
    else { s with inFlight := rest }

/-- User-visible notifications (`toast.*` calls) relevant to the core. -/
inductive Toast where
  | loadedOk
  | loadError
  | saveError
  | sseProcessError : String → Toast
deriving DecidableEq, Repr

/-- Outcome of the `GET /api/bridge/config` fetch as seen by
`loadConfig`: non-ok status (or network error), a body that failed to
parse as JSON, or a parsed JSON body. -/
inductive LoadResponse where
  | httpError
  | parseError
  | body : Value → LoadResponse
deriving Repr

/-- The App state touched by `loadConfig`: the working document
(`config`), `lastSavedConfigRef.current` (null until first set),
`latestConfigRef.current`, and the loading flag. -/
structure LoadState where
  config : Value
  lastSaved : Option Value
  latest : Value
  isLoading : Bool
deriving Repr

/-- The structural validation in `loadConfig`: `data !== null && typeof
data === 'object' && Array.isArray(data.bridges)`. -/
def isValidConfigBody (v : Value) : Bool :=
  v.isComposite &&
    (match jsGet v "bridges" with
     | some (.arr _) => true
     | _ => false)

/-- Function `loadConfig()` of `BrokerForm.tsx` with the fetch outcome supplied:
on success store the document, set the baseline to a deep clone of it
and sync `latestConfigRef`; on any failure (non-ok, parse error, invalid
shape) show an error toast, keep the current (default) document, and set
the baseline to a deep clone of the current document. -/
def loadConfig (st : LoadState) (r : LoadResponse) : LoadState × List Toast :=
  match r with
  | .body v =>
    if isValidConfigBody v then
      ({ config := v, lastSaved := some v, latest := v, isLoading := false }, [.loadedOk])
    else
      ({ st with lastSaved := some st.config, latest := st.config, isLoading := false },
       [.loadError])
  | _ =>
    ({ st with lastSaved := some st.config, latest := st.config, isLoading := false },
     [.loadError])

/-- Per-bridge lifecycle states of the Status Projection. -/
inductive BridgeState where
  | disabled | starting | started | stopping | stopped
deriving DecidableEq, Repr

/-- Per-broker lifecycle states of the Status Projection. -/
inductive BrokerState where
  | disabled | connecting | connected | disconnecting | disconnected
deriving DecidableEq, Repr

/-- Whole-system lifecycle states. -/
inductive SystemState where
  | starting | started | stopping | stopped
deriving DecidableEq, Repr

/-- The Status Projection state: `bridgeStates`, `brokerStates`
(keyed `"bridgeName/instanceName"`), and the system state with its start
time. -/
structure StatusState where
  bridgeStates : String → Option BridgeState
  brokerStates : String → Option BrokerState
  systemState : Option SystemState
  systemStartTime : Option Int

/-- The spread update `{...prev, [k]: v}` on a keyed map. -/
def updMap {α : Type} (m : String → Option α) (k : String) (v : α) : String → Option α :=
  fun x => if x = k then some v else m x

/-- JavaScript truthiness of a property read (`none` = undefined). -/
def jsTruthy : Option Value → Bool
  | none => false
  | some .null => false
  | some (.bool b) => b
  | some (.num n) => n != 0
  | some (.str s) => s != ""
  | some (.arr _) => true
  | some (.obj _) => true

mutual

/-- JavaScript string conversion as used by template literals and
computed property keys: strings verbatim, `String(array)` joins the
elements with commas (null/undefined as empty), objects render as
"[object Object]". -/
def jsToStr : Value → String
  | .null => "null"
  | .bool true => "true"
  | .bool false => "false"
  | .num n => toString n
  | .str s => s
  | .arr l => String.intercalate "," (jsToStrList l)
  | .obj _ => "[object Object]"

def jsToStrList : List Value → List String
  | [] => []
  | .null :: vs => "" :: jsToStrList vs
  | v :: vs => jsToStr v :: jsToStrList vs

end

/-- Does a character list contain `+`? -/
def containsPlus : List Char → Bool
  | [] => false
  | c :: cs => c = '+' || containsPlus cs

/-- Model of `data.instance.includes("+")`. -/
def jsIncludesPlus (s : String) : Bool := containsPlus s.data

/-- Model of `data.instance.split("+").pop()`: the segment after the last `+`
(`split` never returns an empty array, so `pop` always yields a
segment). -/
def jsSplitPlusPop (s : String) : String :=
  match (splitOnChar '+' s.data).getLast? with
  | some seg => String.mk seg
  | none => ""

/-- The `instanceName` ternary of the broker-event handler: for a string
containing `+`, the segment after the last `+`; otherwise the value
unchanged. -/
def sseInstanceName (v : Value) : Value :=
  match v with
  | .str s => if jsIncludesPlus s then .str (jsSplitPlusPop s) else .str s
  | v => v

/-- Model of the broker status map key `` `${data.bridge}/${instanceName}` ``. -/
def sseBrokerKey (bridgeV instV : Value) : String :=
  jsToStr bridgeV ++ "/" ++ jsToStr (sseInstanceName instV)

/-- The shared SSE listener body of `connectToSSE` for one received
event: `none` payload models a `JSON.parse` failure, which lands in the
`catch` (console.error + `toast.error`).  A parsed payload runs the
bridge-state chain (guarded by `data.name`), the broker-state chain
(guarded by `data.bridge && data.instance`), and the system-state chain;
`parseDateMs` models `new Date(x).getTime()` and `nowMs` models
`Date.now()` for the `bridges_started` branch. -/
def handleSSEEvent (eventName : String) (payload : Option Value)
    (parseDateMs : Value → Int) (nowMs : Int) (st : StatusState) :
    StatusState × List Toast :=
  match payload with
  | none => (st, [.sseProcessError eventName])
  | some data =>
    let nameKey := jsToStr ((jsGet data "name").getD .null)
    let st1 :=
      if eventName = "bridge_disabled" && jsTruthy (jsGet data "name") then
        { st with bridgeStates := updMap st.bridgeStates nameKey .disabled }
      else if eventName = "bridge_starting" && jsTruthy (jsGet data "name") then
        { st with bridgeStates := updMap st.bridgeStates nameKey .starting }
      else if eventName = "bridge_started" && jsTruthy (jsGet data "name") then
        { st with bridgeStates := updMap st.bridgeStates nameKey .started }
      else if eventName = "bridge_stopping" && jsTruthy (jsGet data "name") then
        { st with bridgeStates := updMap st.bridgeStates nameKey .stopping }
      else if eventName = "bridge_stopped" && jsTruthy (jsGet data "name") then
        { st with bridgeStates := updMap st.bridgeStates nameKey .stopped }
      else st
    let brokerKey := sseBrokerKey ((jsGet data "bridge").getD .null)
      ((jsGet data "instance").getD .null)
    let st2 :=
      if jsTruthy (jsGet data "bridge") && jsTruthy (jsGet data "instance") then
        if eventName = "broker_disabled" then
          { st1 with brokerStates := updMap st1.brokerStates brokerKey .disabled }
        else if eventName = "broker_connecting" then
          { st1 with brokerStates := updMap st1.brokerStates brokerKey .connecting }
        else if eventName = "broker_connected" then
          { st1 with brokerStates := updMap st1.brokerStates brokerKey .connected }
        else if eventName = "broker_disconnecting" then
          { st1 with brokerStates := updMap st1.brokerStates brokerKey .disconnecting }
        else if eventName = "broker_disconnected" then
          { st1 with brokerStates := updMap st1.brokerStates brokerKey .disconnected }
        else st1
      else st1
    let st3 :=
      if eventName = "bridges_starting" then
        { st2 with systemState := some .starting, systemStartTime := none }
      else if eventName = "bridges_started" then
        { st2 with systemState := some .started,
                   systemStartTime := some (if jsTruthy (jsGet data "at") then
                     parseDateMs ((jsGet data "at").getD .null) else nowMs) }
      else if eventName = "bridges_stopping" then
        { st2 with systemState := some .stopping }
      else if eventName = "bridges_stopped" then
        { st2 with systemState := some .stopped, systemStartTime := none }
      else st2
    (st3, [])

/-- The per-entity SSE event names (those whose handlers require a
payload field: `data.name` for bridge events, `data.bridge` and
`data.instance` for broker events). -/
def sseEntityEvents : List String :=
  ["bridge_disabled", "bridge_starting", "bridge_started", "bridge_stopping",
   "bridge_stopped", "broker_disabled", "broker_connecting", "broker_connected",
   "broker_disconnecting", "broker_disconnected"]

/-- Connection/timer state of the Live Event Channel: `es` is the
`eventSourceRef` handle (`some true` = open, `some false` = a closed
handle still referenced, as happens when `new EventSource` throws after
the old handle was closed but not nulled), `pending` the ids of live
scheduled reconnect timers (a list, so that timer pile-up is
representable), `timeoutRef` the id stored in `reconnectTimeoutRef`. -/
structure SSEMachine where
  es : Option Bool
  pending : List Nat
  timeoutRef : Option Nat
  nextId : Nat
deriving Repr

/-- The `if (reconnectTimeoutRef.current) { clearTimeout(...); ... = null }`
prologue of `connectToSSE`. -/
def clearPendingTimeout (s : SSEMachine) : SSEMachine :=
  match s.timeoutRef with
  | some t => { s with pending := s.pending.erase t, timeoutRef := none }
  | none => s

/-- Function `connectToSSE()` of `BrokerForm.tsx`: close any existing handle
(without nulling the ref), clear any pending reconnect timeout, then
either obtain a fresh open channel (`new EventSource` succeeded) or —
when creation throws — schedule one reconnect timer and store its id in
`reconnectTimeoutRef`. -/
def connectToSSE (s : SSEMachine) (creationOk : Bool) : SSEMachine :=
  let s1 := { s with es := s.es.map (fun _ => false) }
  let s2 := clearPendingTimeout s1
  if creationOk then { s2 with es := some true }
  else { s2 with pending := s2.pending ++ [s2.nextId], timeoutRef := some s2.nextId,
                 nextId := s2.nextId + 1 }

/-- The `eventSource.onerror` handler: close the failed connection and
null the ref, then schedule a reconnect in 5 seconds, storing the timer
id in `reconnectTimeoutRef` (without clearing a previous one — none can
be pending, as the machine-level invariant proves). -/
def onSSEError (s : SSEMachine) : SSEMachine :=
  { s with es := none, pending := s.pending ++ [s.nextId], timeoutRef := some s.nextId,
           nextId := s.nextId + 1 }

/-- Events of the Live Event Channel machine: an external `connectToSSE`
call (the mount effect), a transport failure of the open channel, or a
pending reconnect timer firing (which removes itself from the live set
and runs `connectToSSE`). -/
inductive SSEStep : SSEMachine → SSEMachine → Prop where
  | connect (s : SSEMachine) (ok : Bool) : SSEStep s (connectToSSE s ok)
  | chanError (s : SSEMachine) (h : s.es = some true) : SSEStep s (onSSEError s)
  | timerFire (s : SSEMachine) (t : Nat) (ok : Bool) (h : t ∈ s.pending) :
      SSEStep s (connectToSSE { s with pending := s.pending.erase t } ok)

/-- Initial state: no channel, no timer. -/
def initSSE : SSEMachine := { es := none, pending := [], timeoutRef := none, nextId := 0 }

/-- States the Live Event Channel can actually reach. -/
inductive SSEReachable : SSEMachine → Prop where
  | init : SSEReachable initSSE
  | step {s s2 : SSEMachine} : SSEReachable s → SSEStep s s2 → SSEReachable s2

/-- A concrete document with no bridges (a baseline for examples). -/
def cfgEmpty : BridgesConfig := { bridges := [] }

/-- A concrete bridge named "x" with no brokers. -/
def bridgeX : Bridge := { disabled := none, name := "x", pfx := none, brokers := [] }

/-- A concrete bridge named "y" with no brokers. -/
def bridgeY : Bridge := { disabled := none, name := "y", pfx := none, brokers := [] }

/-- A concrete one-bridge document (bridge "x"). -/
def cfgX : BridgesConfig := { bridges := [bridgeX] }

/-- A concrete one-bridge document (bridge "y"). -/
def cfgY : BridgesConfig := { bridges := [bridgeY] }

/-- The request started by a trigger with working document `cfgX` against
baseline `cfgEmpty`. -/
def reqX : Request :=
  { patch := generateJSONPatch (cleanConfig cfgEmpty) (cleanConfig cfgX) "", newConfig := cfgX }

/-- Did the `GET` round trip succeed (ok status, parseable body of valid
shape)? -/
def loadSucceeded : LoadResponse → Bool
  | .body v => isValidConfigBody v
  | _ => false

/-- A concrete pre-load App state: default document, no baseline yet. -/
def st0load : LoadState :=
  { config := .obj [("bridges", .arr [])], lastSaved := none,
    latest := .obj [("bridges", .arr [])], isLoading := true }

/-- The empty Status Projection (no events observed yet). -/
def initStatus : StatusState :=
  { bridgeStates := fun _ => none, brokerStates := fun _ => none,
    systemState := none, systemStartTime := none }

/-- The single-slot timer invariant of the Live Event Channel: an open
channel has no pending reconnect timer, and at most one timer is ever
live, its id held in `reconnectTimeoutRef`. -/
def SSEInv (s : SSEMachine) : Prop :=
  (s.es = some true → s.pending = []) ∧
  (s.pending = [] ∨ ∃ t, s.pending = [t] ∧ s.timeoutRef = some t)

/-- The six JSON runtime kinds, for stating "type-mismatched". -/
inductive ValueKind where
  | nullK | boolK | numK | strK | seqK | mapK
deriving DecidableEq, Repr

/-- The kind of a value. -/
def Value.kind : Value → ValueKind
  | .null => .nullK
  | .bool _ => .boolK
  | .num _ => .numK
  | .str _ => .strK
  | .arr _ => .seqK
  | .obj _ => .mapK

/-- Rendering of index 0: `toString 0 = "0"`. -/
theorem natStr0 : toString (0 : Nat) = "0" := rfl

/-- Rendering of index 1: `toString 1 = "1"`. -/
theorem natStr1 : toString (1 : Nat) = "1" := rfl

/-- Rendering of index 2: `toString 2 = "2"`. -/
theorem natStr2 : toString (2 : Nat) = "2" := rfl

mutual

/-- Stringify-equality is reflexive. -/
theorem Value.beq_refl : ∀ v : Value, Value.beq v v = true
  | .null => rfl
  | .bool b => by simp [Value.beq]
  | .num n => by simp [Value.beq]
  | .str s => by simp [Value.beq]
  | .arr l => by simpa [Value.beq] using Value.beqList_refl l
  | .obj kvs => by simpa [Value.beq] using Value.beqObj_refl kvs

/-- Element-wise stringify-equality is reflexive. -/
theorem Value.beqList_refl : ∀ l : List Value, Value.beqList l l = true
  | [] => rfl
  | v :: vs => by simp [Value.beqList, Value.beq_refl v, Value.beqList_refl vs]

/-- Member-wise stringify-equality is reflexive. -/
theorem Value.beqObj_refl : ∀ kvs : List (String × Value), Value.beqObj kvs kvs = true
  | [] => rfl
  | (k, v) :: kvs => by simp [Value.beqObj, Value.beq_refl v, Value.beqObj_refl kvs]

end

/-- The array loop emits nothing when both sides are the same list. -/
theorem genArray_refl (os : List Value) (path : String) (i : Nat) :
    genArray os os path i = [] := by
  induction os generalizing i with
  | nil => simp [genArray]
  | cons o os ih => simp [genArray, Value.beq_refl, ih]

/-- The object loop emits nothing when both sides are the same value. -/
theorem genObject_refl (v : Value) (path : String) (keys : List String) :
    genObject v v path keys = [] := by
  induction keys with
  | nil => simp [genObject]
  | cons k ks ih =>
    simp only [genObject]
    split <;> simp_all [Value.beq_refl]

/-- The diff of a value against itself is empty. -/
theorem generateJSONPatch_refl (v : Value) (path : String) :
    generateJSONPatch v v path = [] := by
  match v with
  | .arr l => simp [generateJSONPatch, genArray_refl]
  | .obj kvs => simp [generateJSONPatch, Value.isComposite, genObject_refl]
  | .null => simp [generateJSONPatch, Value.isComposite, jsStrictEq]
  | .bool b => simp [generateJSONPatch, Value.isComposite, jsStrictEq]
  | .num n => simp [generateJSONPatch, Value.isComposite, jsStrictEq]
  | .str s => simp [generateJSONPatch, Value.isComposite, jsStrictEq]

/-- C8: for every Value `D` (and any path), `generateJSONPatch(D, D)` —
the diff of two deep-equal JSON values — returns the empty op list. -/
theorem diff_self_empty (v : Value) (path : String) :
    generateJSONPatch v v path = [] := generateJSONPatch_refl v path

/-- C1 (failing input for the round-trip contract): for the pure tail
shrink `[1,2,3] → [1]` the engine emits its removes at ascending trailing
indices; under standard JSON-Patch semantics the first remove shifts the
array and the second then targets index 2 of a length-2 array, an error —
so `apply(D_old, diff(D_old, D_new))` does not yield `D_new`.  The same
removes applied in descending order would have produced `D_new`. -/
theorem diff_tail_shrink_unapplicable :
    generateJSONPatch (.arr [.num 1, .num 2, .num 3]) (.arr [.num 1]) "" =
      [.remove "/1", .remove "/2"]
    ∧ applyPatch (.arr [.num 1, .num 2, .num 3]) [.remove "/1", .remove "/2"] = none
    ∧ applyPatch (.arr [.num 1, .num 2, .num 3]) [.remove "/2", .remove "/1"] =
      some (.arr [.num 1]) :=
  ⟨by simp [generateJSONPatch, genArray, Value.beq, elementPath, natStr1, natStr2],
   by rfl, by rfl⟩

/-- C7 (counterexample): the deep-unequal Sequence/Mapping pair
`[1]` vs `{a: 1}` does not produce one Replace at the root — both sides
have JavaScript `typeof` `"object"`, so the pair falls into the object
branch, which emits per-key ops (`remove /0`, `add /a`). -/
theorem diff_seq_vs_map_cex :
    Value.beq (.arr [.num 1]) (.obj [("a", .num 1)]) = false
    ∧ generateJSONPatch (.arr [.num 1]) (.obj [("a", .num 1)]) "" =
      [.remove "/0", .add "/a" (.num 1)]
    ∧ generateJSONPatch (.arr [.num 1]) (.obj [("a", .num 1)]) "" ≠
      [.replace "/" (.obj [("a", .num 1)])] := by
  have h : generateJSONPatch (.arr [.num 1]) (.obj [("a", .num 1)]) "" =
      [.remove "/0", .add "/a" (.num 1)] := by
    simp [generateJSONPatch, genObject, genArray, Value.isComposite, unionKeys, dedupFirst,
      jsKeys, jsGet, childPath, List.range, List.range.loop, List.find?, natStr0]
  exact ⟨rfl, h, by rw [h]; simp⟩

/-- C7 (amended): for a type-mismatched deep-unequal pair in which at
least one side is non-composite (null or a scalar), the diff emits
exactly one Replace carrying `newV`, at `path` (rendered `/` at the
root). -/
theorem diff_scalar_mismatch_replace (o n : Value) (path : String)
    (hk : o.kind ≠ n.kind) (hc : (o.isComposite && n.isComposite) = false)
    (hne : Value.beq o n = false) :
    generateJSONPatch o n path = [.replace (if path = "" then "/" else path) n] := by
  cases o <;> cases n <;>
    simp_all [generateJSONPatch, Value.kind, Value.isComposite, jsStrictEq]

/-- C7 (amended, witness): the number/string pair `1` vs `"x"` at path
`/a` satisfies the hypotheses and yields the single Replace. -/
theorem diff_scalar_mismatch_replace_witness :
    (Value.num 1).kind ≠ (Value.str "x").kind
    ∧ ((Value.num 1).isComposite && (Value.str "x").isComposite) = false
    ∧ Value.beq (.num 1) (.str "x") = false
    ∧ generateJSONPatch (.num 1) (.str "x") "/a" = [.replace "/a" (.str "x")] :=
  ⟨by decide, by decide, by decide, by
    simpa using diff_scalar_mismatch_replace (.num 1) (.str "x") "/a"
      (by decide) (by decide) (by decide)⟩

/-- The concrete diff of `cfgEmpty` against `cfgX`: one add of the new
bridge at `/bridges/0`. -/
theorem diff_cfgEmpty_cfgX : generateJSONPatch (cleanConfig cfgEmpty) (cleanConfig cfgX) "" =
    [.add "/bridges/0" (cleanBridge bridgeX)] := by
  simp [cfgEmpty, cfgX, cleanConfig, generateJSONPatch, genObject, genArray, unionKeys,
    dedupFirst, jsKeys, jsGet, childPath, Value.isComposite, Value.beq, Value.beqList,
    List.find?, elementPath, natStr0]

/-- The concrete diff of `cfgEmpty` against `cfgY`. -/
theorem diff_cfgEmpty_cfgY : generateJSONPatch (cleanConfig cfgEmpty) (cleanConfig cfgY) "" =
    [.add "/bridges/0" (cleanBridge bridgeY)] := by
  simp [cfgEmpty, cfgY, cleanConfig, generateJSONPatch, genObject, genArray, unionKeys,
    dedupFirst, jsKeys, jsGet, childPath, Value.isComposite, Value.beq, Value.beqList,
    List.find?, elementPath, natStr0]

/-- C2: in one `sendPatchToServer` call the baseline advances — to the
un-normalized working document itself, not its cleaned form — exactly
when the outcome is a successful PATCH; in every other outcome (no
baseline, empty patch, transport failure) the baseline is unchanged, so
the next triggered diff runs against the same stale baseline and carries
the failed changes again. -/
theorem sendPatch_baseline_advances_iff_success (st : SyncState) (w : BridgesConfig)
    (ok : Bool) :
    ((sendPatchToServer st w ok).1.baseline =
      if (sendPatchToServer st w ok).2 = SendOutcome.sentOk then some w else st.baseline)
    ∧ ((sendPatchToServer st w ok).2 = SendOutcome.sentOk ↔
      ((sendPatchToServer st w ok).2 = SendOutcome.sentOk ∨
        (sendPatchToServer st w ok).2 = SendOutcome.sentFail) ∧ ok = true) := by
  obtain ⟨base⟩ := st
  cases base with
  | none => simp [sendPatchToServer]
  | some last =>
    simp only [sendPatchToServer]
    split
    · simp
    · cases ok <;> simp

/-- C3 (counterexample): two triggers arriving before any response — the
second while the first request is in flight — leave two overlapping
requests in flight, and both their bodies were diffed against the same
baseline `cfgEmpty`. -/
theorem trigger_overlap_cex :
    (triggerStep (triggerStep { baseline := some cfgEmpty, inFlight := [] } cfgX) cfgY
      ).inFlight.length = 2
    ∧ (triggerStep (triggerStep { baseline := some cfgEmpty, inFlight := [] } cfgX) cfgY
      ).inFlight.map Request.patch =
      [generateJSONPatch (cleanConfig cfgEmpty) (cleanConfig cfgX) "",
       generateJSONPatch (cleanConfig cfgEmpty) (cleanConfig cfgY) ""] := by
  have e1 : triggerStep { baseline := some cfgEmpty, inFlight := [] } cfgX =
      { baseline := some cfgEmpty,
        inFlight := [{ patch := generateJSONPatch (cleanConfig cfgEmpty) (cleanConfig cfgX) "",
                       newConfig := cfgX }] } := by
    simp only [triggerStep, diff_cfgEmpty_cfgX]
    norm_num
  have e2 : triggerStep
      ({ baseline := some cfgEmpty,
         inFlight := [{ patch := generateJSONPatch (cleanConfig cfgEmpty) (cleanConfig cfgX) "",
                        newConfig := cfgX }] } : LoopState) cfgY =
      { baseline := some cfgEmpty,
        inFlight := [{ patch := generateJSONPatch (cleanConfig cfgEmpty) (cleanConfig cfgX) "",
                       newConfig := cfgX },
                     { patch := generateJSONPatch (cleanConfig cfgEmpty) (cleanConfig cfgY) "",
                       newConfig := cfgY }] } := by
    simp only [triggerStep, diff_cfgEmpty_cfgY]
    norm_num
  rw [e1, e2]
  exact ⟨rfl, rfl⟩

/-- C3 (amended): the transport has no single-flight discipline — a
trigger always computes a fresh diff against the *current* baseline and,
when the diff is non-empty, immediately starts its own request, appended
after whatever is already in flight. -/
theorem trigger_not_single_flight (s : LoopState) (b w : BridgesConfig)
    (hb : s.baseline = some b)
    (hne : (generateJSONPatch (cleanConfig b) (cleanConfig w) "").length ≠ 0) :
    triggerStep s w = { s with inFlight := s.inFlight ++
      [{ patch := generateJSONPatch (cleanConfig b) (cleanConfig w) "", newConfig := w }] } := by
  obtain ⟨base, inflight⟩ := s
  cases hb
  simp only [triggerStep]
  simp [hne]

/-- C3 (amended, witness): with request `reqX` already in flight and
baseline `cfgEmpty`, triggering with `cfgY` appends a second overlapping
request diffed against the same baseline. -/
theorem trigger_not_single_flight_witness :
    ({ baseline := some cfgEmpty, inFlight := [reqX] } : LoopState).baseline = some cfgEmpty
    ∧ (generateJSONPatch (cleanConfig cfgEmpty) (cleanConfig cfgY) "").length ≠ 0
    ∧ triggerStep { baseline := some cfgEmpty, inFlight := [reqX] } cfgY =
      { baseline := some cfgEmpty, inFlight := [reqX,
        { patch := generateJSONPatch (cleanConfig cfgEmpty) (cleanConfig cfgY) "",
          newConfig := cfgY }] } := by
  refine ⟨rfl, by simp [diff_cfgEmpty_cfgY], ?_⟩
  exact trigger_not_single_flight _ _ _ rfl (by simp [diff_cfgEmpty_cfgY])

/-- C4 (counterexample): starting from the pre-load state whose baseline
is still null, a failed load (non-ok response) *sets* the baseline to a
deep copy of the current default document — it does not remain unset. -/
theorem loadConfig_failure_sets_baseline_cex :
    st0load.lastSaved = none
    ∧ (loadConfig st0load .httpError).1.lastSaved = some st0load.config
    ∧ (loadConfig st0load .httpError).1.lastSaved ≠ none :=
  ⟨rfl, rfl, by simp [loadConfig, st0load]⟩

/-- C4 (amended): a failed load (non-ok status, unparseable body, or
invalid shape) surfaces an error toast, keeps the local document
unchanged, and sets the baseline to a deep copy of that current (default)
document; a successful load stores the fetched document and sets the
baseline to a deep copy of it. -/
theorem loadConfig_spec (st : LoadState) (r : LoadResponse) :
    (loadSucceeded r = false →
      ((loadConfig st r).1.config = st.config
        ∧ (loadConfig st r).1.lastSaved = some st.config
        ∧ (loadConfig st r).2 = [Toast.loadError]))
    ∧ (∀ v, r = .body v → isValidConfigBody v = true →
      ((loadConfig st r).1.config = v
        ∧ (loadConfig st r).1.lastSaved = some v
        ∧ (loadConfig st r).2 = [Toast.loadedOk])) := by
  constructor
  · intro hf
    cases r with
    | httpError => exact ⟨rfl, rfl, rfl⟩
    | parseError => exact ⟨rfl, rfl, rfl⟩
    | body v =>
      simp only [loadSucceeded] at hf
      simp [loadConfig, hf]
  · intro v hv hval
    cases hv
    simp [loadConfig, hval]

/-- C4 (amended, witness): the failure branch at the concrete pre-load
state, and the success branch at a concrete valid body. -/
theorem loadConfig_spec_witness :
    (loadSucceeded .httpError = false
      ∧ ((loadConfig st0load .httpError).1.config = st0load.config
        ∧ (loadConfig st0load .httpError).1.lastSaved = some st0load.config
        ∧ (loadConfig st0load .httpError).2 = [Toast.loadError]))
    ∧ (isValidConfigBody (.obj [("bridges", .arr [])]) = true
      ∧ ((loadConfig st0load (.body (.obj [("bridges", .arr [])]))).1.config =
          .obj [("bridges", .arr [])]
        ∧ (loadConfig st0load (.body (.obj [("bridges", .arr [])]))).1.lastSaved =
          some (.obj [("bridges", .arr [])])
        ∧ (loadConfig st0load (.body (.obj [("bridges", .arr [])]))).2 = [Toast.loadedOk])) :=
  ⟨⟨rfl, (loadConfig_spec st0load .httpError).1 rfl⟩,
   ⟨rfl, (loadConfig_spec st0load (.body (.obj [("bridges", .arr [])]))).2 _ rfl rfl⟩⟩

/-- The `split` function never returns an empty array. -/
theorem splitOnChar_ne_nil (sep : Char) (l : List Char) : splitOnChar sep l ≠ [] := by
  cases l with
  | nil => simp [splitOnChar]
  | cons c cs =>
    simp only [splitOnChar]
    cases h : splitOnChar sep cs with
    | nil => simp
    | cons seg rest => by_cases hc : c = sep <;> simp [hc]

/-- The `split` function produces one more segment than there are separators. -/
theorem splitOnChar_length (sep : Char) (l : List Char) :
    (splitOnChar sep l).length = l.count sep + 1 := by
  induction l with
  | nil => simp [splitOnChar]
  | cons c cs ih =>
    simp only [splitOnChar]
    cases h : splitOnChar sep cs with
    | nil => exact absurd h (splitOnChar_ne_nil sep cs)
    | cons seg rest =>
      rw [h] at ih
      by_cases hc : c = sep
      · subst hc
        simp only [if_pos rfl, List.length_cons, List.count_cons]
        simp only [List.length_cons] at ih
        simp
        omega
      · simp only [if_neg hc, List.length_cons, List.count_cons]
        simp only [List.length_cons] at ih
        simp [hc]
        omega

/-- Splitting a `+`-free list leaves it whole. -/
theorem splitOnChar_no_plus (l : List Char) (h : containsPlus l = false) :
    splitOnChar '+' l = [l] := by
  induction l with
  | nil => simp [splitOnChar]
  | cons c cs ih =>
    simp only [containsPlus, Bool.or_eq_false_iff, decide_eq_false_iff_not] at h
    simp only [splitOnChar, ih h.2]
    simp [h.1]

/-- The last segment of `split("+")` on `t1 ++ "+" ++ t2` with `t2`
`+`-free is `t2`. -/
theorem splitOnChar_plus_getLast (t1 t2 : List Char) (h : containsPlus t2 = false) :
    (splitOnChar '+' (t1 ++ '+' :: t2)).getLast? = some t2 := by
  induction t1 with
  | nil =>
    simp only [List.nil_append, splitOnChar, splitOnChar_no_plus t2 h]
    simp
  | cons c t1 ih =>
    simp only [List.cons_append, splitOnChar]
    cases hs : splitOnChar '+' (t1 ++ '+' :: t2) with
    | nil => exact absurd hs (splitOnChar_ne_nil _ _)
    | cons seg rest =>
      have hlen := splitOnChar_length '+' (t1 ++ '+' :: t2)
      rw [hs] at hlen ih
      have hcount : 1 ≤ (t1 ++ '+' :: t2).count '+' := by
        have he : (t1 ++ '+' :: t2).count '+' = t1.count '+' + (t2.count '+' + 1) := by
          simp [List.count_append, List.count_cons]
        omega
      cases rest with
      | nil =>
        simp only [List.length_cons, List.length_nil] at hlen
        omega
      | cons r rs =>
        rw [List.getLast?_cons_cons] at ih
        by_cases hcp : c = '+'
        · simp only [if_pos hcp]
          rw [List.getLast?_cons_cons, List.getLast?_cons_cons]
          exact ih
        · simp only [if_neg hcp]
          rw [List.getLast?_cons_cons]
          exact ih

/-- A list of the shape `t1 ++ '+' :: t2` contains `+`. -/
theorem containsPlus_append_plus (t1 t2 : List Char) :
    containsPlus (t1 ++ '+' :: t2) = true := by
  induction t1 with
  | nil => simp [containsPlus]
  | cons c t1 ih => simp [containsPlus, ih]

/-- The characters of `t1 ++ "+" ++ t2`. -/
theorem data_append_plus (t1 t2 : String) :
    (t1 ++ "+" ++ t2).data = t1.data ++ '+' :: t2.data := by
  simp [String.data_append]

/-- Applying `split("+").pop()` to `t1 ++ "+" ++ t2` with `t2` `+`-free yields
`t2`. -/
theorem jsSplitPlusPop_append (t1 t2 : String) (h : containsPlus t2.data = false) :
    jsSplitPlusPop (t1 ++ "+" ++ t2) = t2 := by
  simp only [jsSplitPlusPop, data_append_plus,
    splitOnChar_plus_getLast t1.data t2.data h]

/-- C10: the broker status key is built from only the substring after
the *last* `+` of the instance string (`key = bridge ++ "/" ++ last
segment`), and an instance without `+` is used verbatim. -/
theorem broker_key_last_plus_segment (b t1 t2 : String)
    (h : containsPlus t2.data = false) :
    sseBrokerKey (.str b) (.str (t1 ++ "+" ++ t2)) = b ++ "/" ++ t2
    ∧ ∀ s : String, containsPlus s.data = false →
      sseBrokerKey (.str b) (.str s) = b ++ "/" ++ s := by
  constructor
  · have hinc : jsIncludesPlus (t1 ++ "+" ++ t2) = true := by
      simp [jsIncludesPlus, data_append_plus, containsPlus_append_plus]
    simp [sseBrokerKey, sseInstanceName, hinc, jsToStr, jsSplitPlusPop_append t1 t2 h]
  · intro s hs
    have hinc : jsIncludesPlus s = false := by simp [jsIncludesPlus, hs]
    simp [sseBrokerKey, sseInstanceName, hinc, jsToStr]

/-- C10 (witness): instance `"tcp+i1"` under bridge `"b1"` keys the map
at `"b1/i1"`; instance `"i1"` keys it at `"b1/i1"` verbatim. -/
theorem broker_key_last_plus_segment_witness :
    containsPlus "i1".data = false
    ∧ sseBrokerKey (.str "b1") (.str ("tcp" ++ "+" ++ "i1")) = "b1" ++ "/" ++ "i1"
    ∧ sseBrokerKey (.str "b1") (.str "i1") = "b1" ++ "/" ++ "i1" := by
  refine ⟨by decide, ?_, ?_⟩
  · exact (broker_key_last_plus_segment "b1" "tcp" "i1" (by decide)).1
  · exact (broker_key_last_plus_segment "b1" "tcp" "i1" (by decide)).2 "i1" (by decide)

/-- C9: a `broker_connected` event with payload
`{bridge: "b1", instance: "i1"}` sets the broker status map entry at key
`"b1/i1"` to `connected` and leaves the bridge status map (and all other
projection state) untouched. -/
theorem broker_connected_updates_broker_map (st : StatusState) (pd : Value → Int)
    (now : Int) :
    handleSSEEvent "broker_connected"
      (some (.obj [("bridge", .str "b1"), ("instance", .str "i1")])) pd now st =
    ({ st with brokerStates := updMap st.brokerStates "b1/i1" .connected }, []) := rfl

/-- C5 (counterexample): a malformed (unparseable) payload for
`bridge_started` is discarded without state change, but it *does* reach
the user — the catch block raises an error toast, contradicting "nothing
is propagated to the user". -/
theorem sse_parse_failure_toasts_cex :
    handleSSEEvent "bridge_started" none (fun _ => 0) 0 initStatus =
      (initStatus, [.sseProcessError "bridge_started"])
    ∧ [Toast.sseProcessError "bridge_started"] ≠ ([] : List Toast) :=
  ⟨rfl, by simp⟩

/-- C5 (amended): for every recognized per-entity event, an unparseable
payload leaves all projection state unchanged (and the handler never
touches the channel, which stays open) but surfaces an error toast;
a parsed payload missing its required fields is discarded silently — no
state change and no toast. -/
theorem sse_malformed_payload_spec (name : String) (st : StatusState)
    (pd : Value → Int) (now : Int) (hn : name ∈ sseEntityEvents) :
    handleSSEEvent name none pd now st = (st, [.sseProcessError name])
    ∧ handleSSEEvent name (some (.obj [])) pd now st = (st, []) := by
  refine ⟨rfl, ?_⟩
  simp only [sseEntityEvents, List.mem_cons, List.not_mem_nil, or_false] at hn
  rcases hn with rfl | rfl | rfl | rfl | rfl | rfl | rfl | rfl | rfl | rfl <;> rfl

/-- C5 (amended, witness): the two branches at the concrete event
`broker_connected` on the empty projection. -/
theorem sse_malformed_payload_spec_witness :
    "broker_connected" ∈ sseEntityEvents
    ∧ (handleSSEEvent "broker_connected" none (fun _ => 0) 0 initStatus =
        (initStatus, [.sseProcessError "broker_connected"])
      ∧ handleSSEEvent "broker_connected" (some (.obj [])) (fun _ => 0) 0 initStatus =
        (initStatus, [])) :=
  ⟨by decide,
   sse_malformed_payload_spec "broker_connected" initStatus (fun _ => 0) 0 (by decide)⟩

/-- Clearing the (single) referenced timer empties the live set. -/
theorem clearPendingTimeout_pending_empty (s : SSEMachine)
    (h : s.pending = [] ∨ ∃ t, s.pending = [t] ∧ s.timeoutRef = some t) :
    (clearPendingTimeout s).pending = [] := by
  rcases h with h | ⟨t, h1, h2⟩
  · cases hr : s.timeoutRef <;> simp [clearPendingTimeout, hr, h]
  · simp [clearPendingTimeout, h2, h1, List.erase_cons_head]

/-- A `connectToSSE` call from any state satisfying the timer part of the
invariant re-establishes the whole invariant. -/
theorem connectToSSE_inv (s : SSEMachine) (ok : Bool)
    (h : s.pending = [] ∨ ∃ t, s.pending = [t] ∧ s.timeoutRef = some t) :
    SSEInv (connectToSSE s ok) := by
  obtain ⟨es, pending, ref, nid⟩ := s
  rcases h with h | ⟨t, h1, h2⟩
  · simp only at h
    subst h
    cases ref <;> cases ok <;> cases es <;>
      simp [connectToSSE, clearPendingTimeout, SSEInv]
  · simp only at h1 h2
    subst h1
    subst h2
    cases ok <;> cases es <;>
      simp [connectToSSE, clearPendingTimeout, SSEInv, List.erase_cons_head]

/-- One step of the Live Event Channel preserves the single-slot timer
invariant. -/
theorem sse_inv_step {s s2 : SSEMachine} (hstep : SSEStep s s2) (ih : SSEInv s) :
    SSEInv s2 := by
  cases hstep with
  | connect ok => exact connectToSSE_inv s ok ih.2
  | chanError h2 =>
    have hp : s.pending = [] := ih.1 h2
    constructor
    · simp [onSSEError]
    · right
      exact ⟨s.nextId, by simp [onSSEError, hp], by simp [onSSEError]⟩
  | timerFire t ok ht =>
    apply connectToSSE_inv
    left
    rcases ih.2 with hp | ⟨t2, h1, h2⟩
    · rw [hp] at ht
      exact absurd ht (List.not_mem_nil t)
    · simp only
      rw [h1] at ht ⊢
      have : t = t2 := by simpa using ht
      subst this
      simp [List.erase_cons_head]

/-- The single-slot timer invariant holds in every reachable state of
the Live Event Channel. -/
theorem sse_inv_of_reachable {s : SSEMachine} (h : SSEReachable s) : SSEInv s := by
  induction h with
  | init => exact ⟨by simp [initSSE], Or.inl rfl⟩
  | step _hr hstep ih => exact sse_inv_step hstep ih

/-- C6: in every reachable state of the Live Event Channel at most one
reconnect timer is pending, and while the channel is open none is — so a
failure schedules its reconnect from a state with no previously pending
timer, and timers never pile up. -/
theorem sse_reconnect_single_timer (s : SSEMachine) (h : SSEReachable s) :
    s.pending.length ≤ 1 ∧ (s.es = some true → s.pending = []) := by
  have hi := sse_inv_of_reachable h
  refine ⟨?_, hi.1⟩
  rcases hi.2 with hp | ⟨t, h1, _⟩
  · simp [hp]
  · simp [h1]

/-- C6 (witness): the state reached by connect-then-channel-failure is
reachable, has exactly one pending timer, and its channel is closed. -/
theorem sse_reconnect_single_timer_witness :
    SSEReachable (onSSEError (connectToSSE initSSE true))
    ∧ ((onSSEError (connectToSSE initSSE true)).pending.length ≤ 1
      ∧ ((onSSEError (connectToSSE initSSE true)).es = some true →
        (onSSEError (connectToSSE initSSE true)).pending = [])) := by
  have r1 : SSEReachable (connectToSSE initSSE true) :=
    .step .init (.connect initSSE true)
  have r2 : SSEReachable (onSSEError (connectToSSE initSSE true)) :=
    .step r1 (.chanError _ rfl)
  exact ⟨r2, sse_reconnect_single_timer _ r2⟩
